import Mathlib

/-!
Shallow embedding of `src/els_utils/results.py` (SearchResults and
ExplainResult) together with the spec-side notions needed to check the
frozen claims about it.

JSON payloads are modelled by an inductive `Json` type; Python dictionary
operations (`d.get(k, default)`, `d[k]`, `d[k] = v`, `d.copy()`, iteration)
are modelled as functions that return `Except PyErr` exactly where the
Python operation can raise.
-/

/-- Errors a Python-level operation of this library can raise. -/
inductive PyErr where
  | keyError (k : String)
  | attributeError
  | typeError
  | valueError
  deriving Repr, DecidableEq

/-- JSON values, as produced by `response.json()`.  Numbers are modelled as
integers: the wrapped code never computes with them, it only moves them
around, and every documented example uses integral scores. -/
inductive Json where
  | null
  | bool (b : Bool)
  | num (n : Int)
  | str (s : String)
  | arr (items : List Json)
  | obj (fields : List (String × Json))
  deriving Repr

/-- First-match lookup in a Python dict's (insertion-ordered) field list. -/
def lookupField : List (String × Json) → String → Option Json
  | [], _ => none
  | (k, v) :: rest, key => if k = key then some v else lookupField rest key

/-- Python `d.get(key, default)`: returns the default when the key is absent,
and raises `AttributeError` when the receiver is not a dict (it has no
`.get` method). -/
def Json.get (j : Json) (key : String) (default : Json) : Except PyErr Json :=
  match j with
  | .obj fields => .ok ((lookupField fields key).getD default)
  | _ => .error .attributeError

/-- Python `d[key]` with a string key: `KeyError` when the key is absent from
a dict, `TypeError` when the receiver is not a dict. -/
def Json.subscript (j : Json) (key : String) : Except PyErr Json :=
  match j with
  | .obj fields =>
    match lookupField fields key with
    | some v => .ok v
    | none => .error (.keyError key)
  | _ => .error .typeError

/-- Python iteration `for x in j`: lists yield their items, dicts their keys,
strings their characters; other values are not iterable (`TypeError`). -/
def pyIter (j : Json) : Except PyErr (List Json) :=
  match j with
  | .arr items => .ok items
  | .obj fields => .ok (fields.map (fun p => .str p.1))
  | .str s => .ok (s.toList.map (fun c => .str (String.mk [c])))
  | _ => .error .typeError

/-- Python `x.copy()`: dicts and lists have a shallow `.copy` method (in this
value-level model the copy of a value is the value itself); other values
raise `AttributeError`. -/
def pyCopy (j : Json) : Except PyErr Json :=
  match j with
  | .obj _ => .ok j
  | .arr _ => .ok j
  | _ => .error .attributeError

/-- Python dict assignment `d[k] = v` on the field list: an existing key is
overwritten in place (keeping its position), a new key is appended. -/
def setField : List (String × Json) → String → Json → List (String × Json)
  | [], key, v => [(key, v)]
  | (k, w) :: rest, key, v =>
    if k = key then (k, v) :: rest else (k, w) :: setField rest key v

/-- Python `item[k] = v`: updates a dict, raises `TypeError` on anything
else (the code only ever assigns string keys). -/
def setItem (j : Json) (key : String) (v : Json) : Except PyErr Json :=
  match j with
  | .obj fields => .ok (.obj (setField fields key v))
  | _ => .error .typeError

/-- The `requests.Response` object as the wrapper sees it: a status code and
the outcome of calling `.json()` on it (which raises a `ValueError`
subclass when the body is not valid JSON). -/
structure Response where
  status_code : Int
  body : Except PyErr Json
  deriving Repr

/-- State of a constructed `SearchResults` object: the wrapped response and
the parsed JSON body stored by `__init__`. -/
structure SearchResults where
  _response : Response
  _json : Json
  deriving Repr

/-- State of a constructed `ExplainResult` object. -/
structure ExplainResult where
  _response : Response
  _json : Json
  deriving Repr

/-- `response.json()` instrumented with an invocation counter, to state that
the constructor parses the body exactly once. -/
def Response.callJson (r : Response) (calls : Nat) : Except PyErr Json × Nat :=
  (r.body, calls + 1)

/-- `SearchResults.__init__`: stores the response and the result of the one
call to `response.json()`; a parse failure propagates out of the
constructor.  The second component counts the `response.json()` calls
made. -/
def SearchResults.init (r : Response) (calls : Nat) : Except PyErr SearchResults × Nat :=
  let (j, calls) := r.callJson calls
  (j.map (fun js => { _response := r, _json := js }), calls)

/-- `SearchResults.hits`: `self._json.get("hits", {}).get("hits", [])`. -/
def SearchResults.hits (s : SearchResults) : Except PyErr Json := do
  let h ← s._json.get "hits" (.obj [])
  h.get "hits" (.arr [])

/-- `SearchResults.total`:
`self._json.get("hits", {}).get("total", {}).get("value", 0)`. -/
def SearchResults.total (s : SearchResults) : Except PyErr Json := do
  let h ← s._json.get "hits" (.obj [])
  let t ← h.get "total" (.obj [])
  t.get "value" (.num 0)

/-- `SearchResults.get_sources`: without flags, `[hit["_source"] for hit in
self.hits]`; with a flag set, a per-hit shallow copy of `hit["_source"]`
with `_id` / `_score` assigned into the copy. -/
def SearchResults.get_sources (s : SearchResults) (include_id include_score : Bool) :
    Except PyErr (List Json) := do
  let hs ← s.hits
  let hitList ← pyIter hs
  if !include_id && !include_score then
    hitList.mapM (fun hit => hit.subscript "_source")
  else
    hitList.mapM (fun hit => do
      let src ← hit.subscript "_source"
      let item ← pyCopy src
      let item ← if include_id then do
          let idv ← hit.subscript "_id"
          setItem item "_id" idv
        else pure item
      let item ← if include_score then do
          let sv ← hit.subscript "_score"
          setItem item "_score" sv
        else pure item
      pure item)

/-- `SearchResults.get_ids`: `[hit["_id"] for hit in self.hits]`. -/
def SearchResults.get_ids (s : SearchResults) : Except PyErr (List Json) := do
  let hs ← s.hits
  let hitList ← pyIter hs
  hitList.mapM (fun hit => hit.subscript "_id")

/-- `ExplainResult.explanation`: `self._json.get("explanation", {})`. -/
def ExplainResult.explanation (e : ExplainResult) : Except PyErr Json :=
  e._json.get "explanation" (.obj [])

/-- `ExplainResult.score`: `self.explanation.get("value")` (Python's one
argument `.get` defaults to `None`). -/
def ExplainResult.score (e : ExplainResult) : Except PyErr Json := do
  let ex ← e.explanation
  ex.get "value" .null

/-- One flattened breakdown row: `(depth, value, description)`. -/
abbrev Row := Nat × Json × Json

theorem lookupField_sizeOf {fs : List (String × Json)} {key : String} {v : Json}
    (h : lookupField fs key = some v) : sizeOf v < sizeOf fs := by
  induction fs with
  | nil => simp [lookupField] at h
  | cons p rest ih =>
    obtain ⟨k, w⟩ := p
    simp only [lookupField] at h
    split at h
    · cases h
      simp
      omega
    · have := ih h
      simp
      omega

mutual

/-- The recursive closure `walk(node, depth)` inside `get_breakdown`: emit
the node's `(depth, value, description)` row (with defaults `0` and `""`),
then walk each entry of `node.get("details", [])` at `depth + 1`.  A
non-dict node raises `AttributeError` at `node.get`; iterating a non-list
`details` raises on its first element (dict keys and string characters are
strings, which have no `.get`), or `TypeError` when not iterable at all. -/
def walk (node : Json) (depth : Nat) : Except PyErr (List Row) :=
  match node with
  | .obj fs =>
    let desc := (lookupField fs "description").getD (.str "")
    let val := (lookupField fs "value").getD (.num 0)
    match hdet : (lookupField fs "details").getD (.arr []) with
    | .arr xs => do
        let rest ← walkChildren xs (depth + 1)
        pure ((depth, val, desc) :: rest)
    | .obj [] => .ok [(depth, val, desc)]
    | .obj (_ :: _) => .error .attributeError
    | .str s => if s.isEmpty then .ok [(depth, val, desc)] else .error .attributeError
    | .null => .error .typeError
    | .bool _ => .error .typeError
    | .num _ => .error .typeError
  | _ => .error .attributeError
termination_by sizeOf node
decreasing_by
  simp_wf
  rcases hlk : lookupField fields "details" with _ | v
  · rw [hlk] at hdet
    simp only [Option.getD] at hdet
    cases hdet
    have hfields : 1 ≤ sizeOf fields := by cases fields <;> simp_arith
    simp
    omega
  · rw [hlk] at hdet
    simp only [Option.getD] at hdet
    have hv := lookupField_sizeOf hlk
    rw [hdet] at hv
    simp at hv
    omega

/-- The `for detail in details` loop of `walk`: walks the children in list
order, concatenating their rows; the first raising child aborts the
whole traversal. -/
def walkChildren (xs : List Json) (depth : Nat) : Except PyErr (List Row) :=
  match xs with
  | [] => .ok []
  | x :: rest => do
      let r ← walk x depth
      let rs ← walkChildren rest depth
      pure (r ++ rs)
termination_by sizeOf xs
decreasing_by
  all_goals try simp_wf
  all_goals omega

end

/-- `ExplainResult.get_breakdown`: `walk(self.explanation)` with a fresh
local `result` accumulator, returned to the caller. -/
def ExplainResult.get_breakdown (e : ExplainResult) : Except PyErr (List Row) := do
  let ex ← e.explanation
  walk ex 0

/-- A labelled table: column names plus one cell list per row; a missing
cell (pandas `NaN`) is `none`.  Modelled from pandas' documented behaviour
for `pd.DataFrame(list_of_dicts)` and `df[list_of_column_names]`, which are
external library calls of `to_dataframe`. -/
structure DataFrame where
  columns : List String
  rows : List (List (Option Json))
  deriving Repr

/-- Keys of one dict row, appended to the accumulated column list in first
appearance order, without duplicates. -/
def rowKeys (fs : List (String × Json)) (acc : List String) : List String :=
  fs.foldl (fun a p => if p.1 ∈ a then a else a ++ [p.1]) acc

/-- Column list of `pd.DataFrame(list_of_dicts)`: union of the rows' keys in
first appearance order. -/
def collectColumns (srcs : List Json) : List String :=
  srcs.foldl
    (fun acc r =>
      match r with
      | .obj fs => rowKeys fs acc
      | _ => acc)
    []

/-- Whether every row of the data is a dict (the only case the model
covers; `to_dataframe` feeds it `_source` mappings). -/
def allObj (srcs : List Json) : Bool :=
  srcs.all (fun r =>
    match r with
    | .obj _ => true
    | _ => false)

/-- `pd.DataFrame(list_of_dicts)`: one row per dict, one column per key
seen anywhere, absent keys becoming `none` cells. -/
def mkDataFrame (srcs : List Json) : Except PyErr DataFrame :=
  if allObj srcs then
    let cols := collectColumns srcs
    .ok
      { columns := cols
        rows := srcs.map (fun r =>
          match r with
          | .obj fs => cols.map (fun c => lookupField fs c)
          | _ => []) }
  else .error .typeError

/-- Cell of a row under a given column name, by position in the column
list. -/
def getCell : List String → List (Option Json) → String → Option Json
  | [], _, _ => none
  | _ :: _, [], _ => none
  | c :: cs, v :: vs, key => if c = key then v else getCell cs vs key

/-- `df[cs]` for a list `cs` of column names: `KeyError` when a requested
column is missing from the frame, otherwise the projection to exactly
those columns in that order. -/
def dfSelect (df : DataFrame) (cs : List String) : Except PyErr DataFrame :=
  match cs.find? (fun c => decide (c ∉ df.columns)) with
  | some c => .error (.keyError c)
  | none =>
    .ok
      { columns := cs
        rows := df.rows.map (fun row => cs.map (fun c => getCell df.columns row c)) }

/-- `SearchResults.to_dataframe`: builds the frame from
`get_sources(include_id, include_score)` and, `if columns:` (a non-None,
non-empty list), returns `df[columns]`, else the whole frame. -/
def SearchResults.to_dataframe (s : SearchResults) (columns : Option (List String))
    (include_id include_score : Bool) : Except PyErr DataFrame := do
  let srcs ← s.get_sources include_id include_score
  let df ← mkDataFrame srcs
  match columns with
  | some cs => if cs.isEmpty then pure df else dfSelect df cs
  | none => pure df

/-- Spec-side explanation tree: a node with a value, a description and an
ordered list of children. -/
inductive SpecTree where
  | node (value : Json) (description : Json) (children : List SpecTree)

mutual

/-- Spec-side pre-order depth-first flattening: the root's row first, then
each child's rows recursively in order, children one level deeper. -/
def specPreorder (t : SpecTree) (depth : Nat) : List Row :=
  match t with
  | .node v d cs => (depth, v, d) :: specPreorderList cs (depth + 1)

/-- Pre-order flattening of a forest, left to right. -/
def specPreorderList (ts : List SpecTree) (depth : Nat) : List Row :=
  match ts with
  | [] => []
  | t :: rest => specPreorder t depth ++ specPreorderList rest depth

end

/-- How a JSON value encodes a spec-side explanation tree: a dict whose
(defaulted) `value` and `description` fields are the node's label, and
whose (defaulted) `details` field is a list encoding the children in
order. -/
inductive Encodes : Json → SpecTree → Prop where
  | node (fs : List (String × Json)) (cs : List Json) (ts : List SpecTree)
      (hdetails : (lookupField fs "details").getD (.arr []) = .arr cs)
      (hlen : cs.length = ts.length)
      (hchildren : ∀ p ∈ cs.zip ts, Encodes p.1 p.2) :
      Encodes (.obj fs)
        (.node ((lookupField fs "value").getD (.num 0))
          ((lookupField fs "description").getD (.str "")) ts)


/-- State-passing form of `get_sources`: the method body assigns only to the
fresh per-hit dict obtained from `hit["_source"].copy()`, never to
`self._response` or `self._json`, so the post-state is the pre-state. -/
def SearchResults.get_sourcesS (s : SearchResults) (include_id include_score : Bool) :
    Except PyErr (List Json) × SearchResults :=
  (s.get_sources include_id include_score, s)

/-- State-passing form of `get_ids`: a pure read of `self._json`. -/
def SearchResults.get_idsS (s : SearchResults) : Except PyErr (List Json) × SearchResults :=
  (s.get_ids, s)

/-- State-passing form of the `total` property: a pure read. -/
def SearchResults.totalS (s : SearchResults) : Except PyErr Json × SearchResults :=
  (s.total, s)

/-- State-passing form of the `hits` property: a pure read. -/
def SearchResults.hitsS (s : SearchResults) : Except PyErr Json × SearchResults :=
  (s.hits, s)

/-- State-passing form of `to_dataframe`: builds a fresh frame from the
sources, writing nothing back. -/
def SearchResults.to_dataframeS (s : SearchResults) (columns : Option (List String))
    (include_id include_score : Bool) : Except PyErr DataFrame × SearchResults :=
  (s.to_dataframe columns include_id include_score, s)

/-- State-passing form of `get_breakdown`: the walk appends to the fresh
local `result` list created on each call and stores nothing on `self`. -/
def ExplainResult.get_breakdownS (e : ExplainResult) :
    Except PyErr (List Row) × ExplainResult :=
  (e.get_breakdown, e)

/-- One observable call on a `SearchResults` instance. -/
inductive SRCall where
  | sources (include_id include_score : Bool)
  | ids
  | totalCount
  | hitList
  | table (columns : Option (List String)) (include_id include_score : Bool)

/-- The instance state after performing one call (its result is dropped). -/
def SRCall.applyCall : SRCall → SearchResults → SearchResults
  | .sources i sc, s => (s.get_sourcesS i sc).2
  | .ids, s => s.get_idsS.2
  | .totalCount, s => s.totalS.2
  | .hitList, s => s.hitsS.2
  | .table cs i sc, s => (s.to_dataframeS cs i sc).2

/-- The instance state after a whole sequence of calls. -/
def runCalls : List SRCall → SearchResults → SearchResults
  | [], s => s
  | c :: rest, s => runCalls rest (c.applyCall s)

/-- A well-formed response whose body parses to an empty JSON object. -/
def respOk : Response :=
  { status_code := 200, body := .ok (.obj []) }

/-- A `SearchResults` whose hit array is the given list. -/
def srWithHits (hitsArr : List Json) : SearchResults :=
  { _response := respOk
    _json := .obj [("hits", .obj [("hits", .arr hitsArr)])] }

/-- The explanation tree of the spec's worked example, as JSON. -/
def exampleTreeJson : Json :=
  .obj [("value", .num 10), ("description", .str "root"),
    ("details", .arr [
      .obj [("value", .num 4), ("description", .str "a")],
      .obj [("value", .num 6), ("description", .str "b"),
        ("details", .arr [.obj [("value", .num 6), ("description", .str "c")]])]])]

/-- An `ExplainResult` wrapping the spec's worked example. -/
def exampleExplainResult : ExplainResult :=
  { _response := respOk, _json := .obj [("explanation", exampleTreeJson)] }

/-- The spec-side tree the worked example encodes. -/
def exampleSpecTree : SpecTree :=
  .node (.num 10) (.str "root")
    [.node (.num 4) (.str "a") [],
     .node (.num 6) (.str "b") [.node (.num 6) (.str "c") []]]

theorem lookupField_setField_self (fs : List (String × Json)) (key : String) (v : Json) :
    lookupField (setField fs key v) key = some v := by
  induction fs with
  | nil => simp [setField, lookupField]
  | cons p rest ih =>
    obtain ⟨k, w⟩ := p
    by_cases hk : k = key
    · simp [setField, lookupField, hk]
    · simp [setField, lookupField, hk, ih]

theorem mapM_ok_forall₂ {α β : Type} (f : α → Except PyErr β) (P : α → β → Prop) :
    ∀ xs : List α, (∀ x ∈ xs, ∃ y, f x = .ok y ∧ P x y) →
      ∃ ys, xs.mapM f = .ok ys ∧ List.Forall₂ P xs ys := by
  intro xs
  induction xs with
  | nil => intro _; exact ⟨[], by rw [List.mapM_nil]; rfl, List.Forall₂.nil⟩
  | cons x rest ih =>
    intro h
    obtain ⟨y, hy, hP⟩ := h x (by simp)
    obtain ⟨ys, hys, hF⟩ := ih (fun a ha => h a (by simp [ha]))
    refine ⟨y :: ys, ?_, List.Forall₂.cons hP hF⟩
    rw [List.mapM_cons, hy, hys]
    rfl

theorem walkChildren_spec :
    ∀ (cs : List Json) (ts : List SpecTree), cs.length = ts.length →
      (∀ p ∈ cs.zip ts, ∀ depth, walk p.1 depth = .ok (specPreorder p.2 depth)) →
      ∀ depth, walkChildren cs depth = .ok (specPreorderList ts depth) := by
  intro cs
  induction cs with
  | nil =>
    intro ts hlen _ depth
    cases ts with
    | nil => simp [walkChildren, specPreorderList]
    | cons t rest => simp at hlen
  | cons c rest ih =>
    intro ts hlen h depth
    cases ts with
    | nil => simp at hlen
    | cons t ts' =>
      have hc : walk c depth = .ok (specPreorder t depth) := h (c, t) (by simp) depth
      have hr : walkChildren rest depth = .ok (specPreorderList ts' depth) := by
        refine ih ts' (by simpa using hlen) ?_ depth
        intro p hp d
        exact h p (by simp [hp]) d
      rw [walkChildren, hc, hr]
      simp only [specPreorderList]
      rfl

theorem walk_encodes {j : Json} {t : SpecTree} (h : Encodes j t) :
    ∀ depth, walk j depth = .ok (specPreorder t depth) := by
  induction h with
  | node fs cs ts hdetails hlen hchildren ih =>
    intro depth
    have hc : walkChildren cs (depth + 1) = .ok (specPreorderList ts (depth + 1)) :=
      walkChildren_spec cs ts hlen (fun p hp d => ih p hp d) (depth + 1)
    rw [walk]
    split <;> rename_i hdet <;> rw [hdetails] at hdet <;> cases hdet
    rw [hc]
    simp only [specPreorder]
    rfl

@[simp] theorem except_bind_ok {ε α β : Type} (a : α) (f : α → Except ε β) :
    (Except.ok a >>= f : Except ε β) = f a := rfl

@[simp] theorem except_bind_error {ε α β : Type} (e : ε) (f : α → Except ε β) :
    (Except.error e >>= f : Except ε β) = .error e := rfl

@[simp] theorem except_map_ok {ε α β : Type} (a : α) (f : α → β) :
    (Except.ok a : Except ε α).map f = .ok (f a) := rfl

@[simp] theorem except_map_error {ε α β : Type} (e : ε) (f : α → β) :
    (Except.error e : Except ε α).map f = .error e := rfl

@[simp] theorem except_pure_eq_ok {ε α : Type} (a : α) :
    (pure a : Except ε α) = .ok a := rfl

theorem mem_rowKeys (c : String) : ∀ (fs : List (String × Json)) (acc : List String),
    c ∈ rowKeys fs acc ↔ c ∈ acc ∨ (lookupField fs c).isSome := by
  intro fs
  induction fs with
  | nil => intro acc; simp [rowKeys, lookupField]
  | cons p rest ih =>
    intro acc
    obtain ⟨k, w⟩ := p
    have hstep : rowKeys ((k, w) :: rest) acc = rowKeys rest (if k ∈ acc then acc else acc ++ [k]) := rfl
    rw [hstep, ih]
    by_cases hk : k = c
    · subst hk
      by_cases hm : k ∈ acc <;> simp [lookupField, hm]
    · by_cases hm : k ∈ acc <;> simp [lookupField, hk, hm, Ne.symm hk]

theorem mem_collectColumns_aux (c : String) : ∀ (srcs : List Json) (acc : List String),
    c ∈ srcs.foldl
        (fun acc r =>
          match r with
          | .obj fs => rowKeys fs acc
          | _ => acc) acc ↔
      c ∈ acc ∨ ∃ fs, Json.obj fs ∈ srcs ∧ (lookupField fs c).isSome := by
  intro srcs
  induction srcs with
  | nil => intro acc; simp
  | cons r rest ih =>
    intro acc
    rw [List.foldl_cons, ih]
    cases r <;> simp [mem_rowKeys, or_assoc]

theorem mem_collectColumns (c : String) (srcs : List Json) :
    c ∈ collectColumns srcs ↔ ∃ fs, Json.obj fs ∈ srcs ∧ (lookupField fs c).isSome := by
  rw [collectColumns, mem_collectColumns_aux]
  simp

theorem mkDataFrame_columns {srcs : List Json} {df : DataFrame}
    (h : mkDataFrame srcs = .ok df) : df.columns = collectColumns srcs := by
  rw [mkDataFrame] at h
  split at h
  · cases h; rfl
  · cases h

/-- C4: if the response JSON has `hits.total.value = N` then `total` returns
`N`; if the nested path `hits.total.value` is absent at any level (all
values along the present prefix being objects), `total` returns `0`. -/
theorem total_of_hits_total_value (r : Response) (fs ft fv : List (String × Json)) (N : Int) :
    (lookupField fs "hits" = some (.obj ft) →
      lookupField ft "total" = some (.obj fv) →
      lookupField fv "value" = some (.num N) →
      SearchResults.total ⟨r, .obj fs⟩ = .ok (.num N)) ∧
    ((lookupField fs "hits" = none ∨
      (∃ ft', lookupField fs "hits" = some (.obj ft') ∧ lookupField ft' "total" = none) ∨
      (∃ ft' fv', lookupField fs "hits" = some (.obj ft') ∧
        lookupField ft' "total" = some (.obj fv') ∧ lookupField fv' "value" = none)) →
      SearchResults.total ⟨r, .obj fs⟩ = .ok (.num 0)) := by
  constructor
  · intro h1 h2 h3
    simp [SearchResults.total, Json.get, h1, h2, h3]
  · intro h
    rcases h with h1 | ⟨ft', h1, h2⟩ | ⟨ft', fv', h1, h2, h3⟩
    · simp [SearchResults.total, Json.get, h1, lookupField]
    · simp [SearchResults.total, Json.get, h1, h2, lookupField]
    · simp [SearchResults.total, Json.get, h1, h2, h3, lookupField]

/-- Witness for C4 at concrete inputs: a body with `hits.total.value = 42`
and a body missing `hits` entirely. -/
theorem total_of_hits_total_value_witness :
    SearchResults.total ⟨respOk, .obj [("hits", .obj [("total", .obj [("value", .num 42)])])]⟩
        = .ok (.num 42) ∧
    SearchResults.total ⟨respOk, .obj []⟩ = .ok (.num 0) :=
  ⟨(total_of_hits_total_value respOk
      [("hits", .obj [("total", .obj [("value", .num 42)])])]
      [("total", .obj [("value", .num 42)])] [("value", .num 42)] 42).1 rfl rfl rfl,
   (total_of_hits_total_value respOk [] [] [] 0).2 (Or.inl rfl)⟩

/-- C9: with no `explanation` key in the body, `explanation` returns an
empty mapping and `get_breakdown` returns exactly the single defaulted
root row `(0, 0, "")`, not an empty sequence. -/
theorem empty_explanation_breakdown (r : Response) (fs : List (String × Json))
    (h : lookupField fs "explanation" = none) :
    ExplainResult.explanation ⟨r, .obj fs⟩ = .ok (.obj []) ∧
    ExplainResult.get_breakdown ⟨r, .obj fs⟩ = .ok [(0, .num 0, .str "")] := by
  have hex : ExplainResult.explanation ⟨r, .obj fs⟩ = .ok (.obj []) := by
    simp [ExplainResult.explanation, Json.get, h]
  refine ⟨hex, ?_⟩
  simp [ExplainResult.get_breakdown, hex]
  simp [walk, walkChildren, lookupField]

/-- Witness for C9 at the concrete empty body. -/
theorem empty_explanation_breakdown_witness :
    ExplainResult.explanation ⟨respOk, .obj []⟩ = .ok (.obj []) ∧
    ExplainResult.get_breakdown ⟨respOk, .obj []⟩ = .ok [(0, .num 0, .str "")] :=
  empty_explanation_breakdown respOk [] rfl

/-- C10: `to_dataframe` with `columns = []` behaves exactly as with
`columns = None`: the empty list is falsy in `if columns:`, so the full
frame is returned and nothing is raised beyond what the `None` call
raises. -/
theorem to_dataframe_empty_columns_full_table (s : SearchResults)
    (include_id include_score : Bool) :
    s.to_dataframe (some []) include_id include_score =
      s.to_dataframe none include_id include_score := rfl

/-- C6: `get_breakdown` is pure and uncached: it leaves the instance state
unchanged (it stores nothing on `self`), and a second call on the
resulting state returns a structurally equal row sequence; each call
builds its result list afresh from the traversal alone. -/
theorem get_breakdown_pure_uncached (e : ExplainResult) :
    e.get_breakdownS.2 = e ∧
    (e.get_breakdownS.2).get_breakdownS.1 = e.get_breakdownS.1 :=
  ⟨rfl, rfl⟩

/-- C8: no sequence of instance calls (`get_sources` with any flags,
`get_ids`, `total`, `hits`, `to_dataframe`, and `get_breakdown` on an
`ExplainResult`) changes the instance state, in particular the parsed
JSON body with every hit's source mapping: `get_sources` writes only into
the per-hit copy made by `hit["_source"].copy()`. -/
theorem instance_calls_preserve_state :
    (∀ (calls : List SRCall) (s : SearchResults), runCalls calls s = s) ∧
    (∀ e : ExplainResult, e.get_breakdownS.2 = e) := by
  constructor
  · intro calls
    induction calls with
    | nil => intro s; rfl
    | cons c rest ih =>
      intro s
      rw [runCalls]
      cases c <;> exact ih _
  · intro e
    rfl

/-- C7: the constructor calls `response.json()` exactly once; a body that
fails to parse makes construction fail with that parse error, and a
valid body yields the constructed object holding the parsed body. -/
theorem init_parses_once_and_propagates (r : Response) :
    (SearchResults.init r 0).2 = 1 ∧
    (∀ e, r.body = .error e → (SearchResults.init r 0).1 = .error e) ∧
    (∀ j, r.body = .ok j → (SearchResults.init r 0).1 = .ok ⟨r, j⟩) := by
  refine ⟨rfl, ?_, ?_⟩
  · intro e he
    simp [SearchResults.init, Response.callJson, he]
  · intro j hj
    simp [SearchResults.init, Response.callJson, hj]

/-- A response whose body is not valid JSON: `.json()` raises. -/
def respBad : Response :=
  { status_code := 500, body := .error .valueError }

/-- Witness for C7 at a malformed and at a well-formed body. -/
theorem init_parses_once_and_propagates_witness :
    (SearchResults.init respBad 0).2 = 1 ∧
    (SearchResults.init respBad 0).1 = .error .valueError ∧
    (SearchResults.init respOk 0).1 = .ok ⟨respOk, .obj []⟩ :=
  ⟨(init_parses_once_and_propagates respBad).1,
   (init_parses_once_and_propagates respBad).2.1 .valueError rfl,
   (init_parses_once_and_propagates respOk).2.2 (.obj []) rfl⟩

/-- C1: for every explanation tree (a JSON encoding of a `SpecTree`),
`get_breakdown` returns exactly the pre-order depth-first flattening:
root first at depth 0, then each node's children recursively in source
order, each child one level deeper than its parent. -/
theorem get_breakdown_is_preorder (e : ExplainResult) (j : Json) (t : SpecTree)
    (hex : e.explanation = .ok j) (henc : Encodes j t) :
    e.get_breakdown = .ok (specPreorder t 0) := by
  simp [ExplainResult.get_breakdown, hex]
  exact walk_encodes henc 0

/-- Witness for C1: the spec's worked example tree flattens to exactly
`[(0,10,"root"), (1,4,"a"), (1,6,"b"), (2,6,"c")]`. -/
theorem get_breakdown_is_preorder_witness :
    exampleExplainResult.get_breakdown =
      .ok [(0, .num 10, .str "root"), (1, .num 4, .str "a"),
        (1, .num 6, .str "b"), (2, .num 6, .str "c")] := by
  have henc : Encodes exampleTreeJson exampleSpecTree := by
    unfold exampleTreeJson exampleSpecTree
    refine Encodes.node _ _ _ rfl rfl ?_
    intro p hp
    simp only [List.zip_cons_cons, List.zip_nil_right, List.mem_cons, List.not_mem_nil,
      or_false] at hp
    rcases hp with hp | hp <;> subst hp
    · exact Encodes.node _ _ _ rfl rfl (by simp)
    · refine Encodes.node _ _ _ rfl rfl ?_
      intro q hq
      simp only [List.zip_cons_cons, List.zip_nil_right, List.mem_cons, List.not_mem_nil,
        or_false] at hq
      subst hq
      exact Encodes.node _ _ _ rfl rfl (by simp)
  have h := get_breakdown_is_preorder exampleExplainResult exampleTreeJson exampleSpecTree rfl henc
  rw [h]
  simp [exampleSpecTree, specPreorder, specPreorderList]

@[simp] theorem except_mapM_loop_nil {ε α β : Type} (f : α → Except ε β) (acc : List β) :
    List.mapM.loop f [] acc = .ok acc.reverse := rfl

@[simp] theorem except_mapM_loop_cons {ε α β : Type} (f : α → Except ε β) (x : α)
    (xs : List α) (acc : List β) :
    List.mapM.loop f (x :: xs) acc = f x >>= fun y => List.mapM.loop f xs (y :: acc) := rfl

/-- Counterexample to C2 as stated: a hit record with no `_source` key makes
`get_sources()` raise `KeyError("_source")` instead of yielding a
default. -/
theorem get_sources_raises_on_missing_source :
    (srWithHits [.obj []]).get_sources false false = .error (.keyError "_source") := rfl

/-- C2 (amended): `total`, `hits`, `explanation`, `score` and
`get_breakdown` use structural defaulting at every level — the hits path
absent at either level gives `hits = []` and empty `get_sources` /
`get_ids` results, the `hits.total.value` path absent at any of its three
levels gives `total = 0`, a missing `explanation` gives the empty mapping
and the single defaulted breakdown row, a missing `value` under a present
`explanation` gives a null `score`, and a breakdown node at any depth
missing `details` (and possibly `value` / `description`) yields its single
defaulted row rather than raising; but a present hit record lacking
`_source`, `_id`, or (under `include_score`) `_score` makes
`get_sources` / `get_ids` raise a `KeyError` for that key rather than
defaulting. -/
theorem accessor_defaults_and_subscript_errors (r : Response) (fs : List (String × Json))
    (include_id include_score : Bool) :
    ((lookupField fs "hits" = none ∨
        (∃ hf, lookupField fs "hits" = some (.obj hf) ∧ lookupField hf "hits" = none)) →
      SearchResults.hits ⟨r, .obj fs⟩ = .ok (.arr []) ∧
      SearchResults.get_sources ⟨r, .obj fs⟩ include_id include_score = .ok [] ∧
      SearchResults.get_ids ⟨r, .obj fs⟩ = .ok []) ∧
    ((lookupField fs "hits" = none ∨
        (∃ ft, lookupField fs "hits" = some (.obj ft) ∧ lookupField ft "total" = none) ∨
        (∃ ft fv, lookupField fs "hits" = some (.obj ft) ∧
          lookupField ft "total" = some (.obj fv) ∧ lookupField fv "value" = none)) →
      SearchResults.total ⟨r, .obj fs⟩ = .ok (.num 0)) ∧
    (lookupField fs "explanation" = none →
      ExplainResult.explanation ⟨r, .obj fs⟩ = .ok (.obj []) ∧
      ExplainResult.get_breakdown ⟨r, .obj fs⟩ = .ok [(0, .num 0, .str "")]) ∧
    ((lookupField fs "explanation" = none ∨
        (∃ ef, lookupField fs "explanation" = some (.obj ef) ∧
          lookupField ef "value" = none)) →
      ExplainResult.score ⟨r, .obj fs⟩ = .ok .null) ∧
    (∀ nfs depth, lookupField nfs "details" = none →
      walk (.obj nfs) depth =
        .ok [(depth, (lookupField nfs "value").getD (.num 0),
          (lookupField nfs "description").getD (.str ""))]) ∧
    (∀ hfs, lookupField hfs "_source" = none →
      SearchResults.get_sources (srWithHits [.obj hfs]) include_id include_score =
        .error (.keyError "_source")) ∧
    (∀ hfs, lookupField hfs "_id" = none →
      SearchResults.get_ids (srWithHits [.obj hfs]) = .error (.keyError "_id")) ∧
    (∀ hfs sfs, lookupField hfs "_source" = some (.obj sfs) →
      lookupField hfs "_score" = none →
      SearchResults.get_sources (srWithHits [.obj hfs]) false true =
        .error (.keyError "_score")) := by
  have hhits : (lookupField fs "hits" = none ∨
      (∃ hf, lookupField fs "hits" = some (.obj hf) ∧ lookupField hf "hits" = none)) →
      SearchResults.hits ⟨r, .obj fs⟩ = .ok (.arr []) := by
    rintro (h | ⟨hf, h1, h2⟩)
    · simp [SearchResults.hits, Json.get, h, lookupField]
    · simp [SearchResults.hits, Json.get, h1, h2]
  refine ⟨?_, ?_, ?_, ?_, ?_, ?_, ?_, ?_⟩
  · intro h
    refine ⟨hhits h, ?_, ?_⟩
    · cases include_id <;> cases include_score <;>
        simp [SearchResults.get_sources, hhits h, pyIter, List.mapM_nil]
    · simp [SearchResults.get_ids, hhits h, pyIter, List.mapM_nil]
  · rintro (h | ⟨ft, h1, h2⟩ | ⟨ft, fv, h1, h2, h3⟩)
    · simp [SearchResults.total, Json.get, h, lookupField]
    · simp [SearchResults.total, Json.get, h1, h2, lookupField]
    · simp [SearchResults.total, Json.get, h1, h2, h3, lookupField]
  · intro h
    have hex : ExplainResult.explanation ⟨r, .obj fs⟩ = .ok (.obj []) := by
      simp [ExplainResult.explanation, Json.get, h]
    refine ⟨hex, ?_⟩
    simp [ExplainResult.get_breakdown, hex]
    simp [walk, walkChildren, lookupField]
  · rintro (h | ⟨ef, h1, h2⟩)
    · have hex : ExplainResult.explanation ⟨r, .obj fs⟩ = .ok (.obj []) := by
        simp [ExplainResult.explanation, Json.get, h]
      simp [ExplainResult.score, hex, Json.get, lookupField]
    · have hex : ExplainResult.explanation ⟨r, .obj fs⟩ = .ok (.obj ef) := by
        simp [ExplainResult.explanation, Json.get, h1]
      simp [ExplainResult.score, hex, Json.get, h2]
  · intro nfs depth hdet2
    have hd : (lookupField nfs "details").getD (.arr []) = .arr [] := by
      rw [hdet2]
      rfl
    rw [walk]
    split <;> rename_i hd2 <;> rw [hd] at hd2 <;> cases hd2
    simp [walkChildren]
  · intro hfs h
    cases include_id <;> cases include_score <;>
      simp [SearchResults.get_sources, srWithHits, SearchResults.hits, Json.get, pyIter,
        lookupField, List.mapM_cons, Json.subscript, h]
  · intro hfs h
    simp [SearchResults.get_ids, srWithHits, SearchResults.hits, Json.get, pyIter,
      lookupField, List.mapM_cons, Json.subscript, h]
  · intro hfs sfs hsrc hscore
    simp [SearchResults.get_sources, srWithHits, SearchResults.hits, Json.get, pyIter,
      lookupField, List.mapM_cons, Json.subscript, hsrc, hscore, pyCopy]

/-- Witness for C2 (amended) at concrete inputs exercising the deeper
levels: a `hits` object without a `hits` key, a `total` object without a
`value` key, a present `explanation` without a `value` key, a depth-3
node without `details`, and a hit record lacking each indexed key. -/
theorem accessor_defaults_and_subscript_errors_witness :
    (SearchResults.hits ⟨respOk, .obj [("hits", .obj [])]⟩ = .ok (.arr []) ∧
      SearchResults.get_sources ⟨respOk, .obj [("hits", .obj [])]⟩ true false = .ok [] ∧
      SearchResults.get_ids ⟨respOk, .obj [("hits", .obj [])]⟩ = .ok []) ∧
    SearchResults.total ⟨respOk, .obj [("hits", .obj [("total", .obj [])])]⟩ =
      .ok (.num 0) ∧
    (ExplainResult.explanation ⟨respOk, .obj []⟩ = .ok (.obj []) ∧
      ExplainResult.get_breakdown ⟨respOk, .obj []⟩ = .ok [(0, .num 0, .str "")]) ∧
    ExplainResult.score ⟨respOk, .obj [("explanation", .obj [("description", .str "d")])]⟩ =
      .ok .null ∧
    walk (.obj [("value", .num 7)]) 3 = .ok [(3, .num 7, .str "")] ∧
    SearchResults.get_sources (srWithHits [.obj []]) true false =
      .error (.keyError "_source") ∧
    SearchResults.get_ids (srWithHits [.obj []]) = .error (.keyError "_id") ∧
    SearchResults.get_sources (srWithHits [.obj [("_source", .obj [])]]) false true =
      .error (.keyError "_score") := by
  refine ⟨(accessor_defaults_and_subscript_errors respOk [("hits", .obj [])] true false).1
      (Or.inr ⟨[], rfl, rfl⟩),
    (accessor_defaults_and_subscript_errors respOk [("hits", .obj [("total", .obj [])])]
      true false).2.1 (Or.inr (Or.inr ⟨[("total", .obj [])], [], rfl, rfl, rfl⟩)),
    (accessor_defaults_and_subscript_errors respOk [] true false).2.2.1 rfl,
    (accessor_defaults_and_subscript_errors respOk
      [("explanation", .obj [("description", .str "d")])] true false).2.2.2.1
      (Or.inr ⟨[("description", .str "d")], rfl, rfl⟩),
    (accessor_defaults_and_subscript_errors respOk [] true false).2.2.2.2.1
      [("value", .num 7)] 3 rfl,
    (accessor_defaults_and_subscript_errors respOk [] true false).2.2.2.2.2.1 [] rfl,
    (accessor_defaults_and_subscript_errors respOk [] true false).2.2.2.2.2.2.1 [] rfl,
    (accessor_defaults_and_subscript_errors respOk [] true false).2.2.2.2.2.2.2
      [("_source", .obj [])] [] rfl rfl⟩

/-- C5: with `include_id=True`, every returned item is a fresh copy of the
hit's source field list with `_id` set to the hit's identifier —
overwriting (in place) any pre-existing `_id` field — so looking up
`_id` in the item always yields the hit's identifier; the stored source
mapping itself is left untouched (see the frame theorem over
`runCalls`). -/
theorem get_sources_include_id_spec (s : SearchResults) (hitObjs : List Json)
    (hh : s.hits = .ok (.arr hitObjs))
    (hwf : ∀ hit ∈ hitObjs, ∃ sfs idv,
      hit.subscript "_source" = .ok (.obj sfs) ∧ hit.subscript "_id" = .ok idv) :
    ∃ items, s.get_sources true false = .ok items ∧
      List.Forall₂ (fun hit item => ∃ sfs idv,
        hit.subscript "_source" = .ok (.obj sfs) ∧ hit.subscript "_id" = .ok idv ∧
        item = .obj (setField sfs "_id" idv) ∧
        lookupField (setField sfs "_id" idv) "_id" = some idv) hitObjs items := by
  simp only [SearchResults.get_sources, hh, pyIter, except_bind_ok, Bool.not_true,
    Bool.not_false, Bool.false_and, Bool.if_false_left, Bool.and_self]
  simp only [if_true, if_false, Bool.false_eq_true, if_neg, reduceIte]
  refine mapM_ok_forall₂ _ _ hitObjs ?_
  intro hit hmem
  obtain ⟨sfs, idv, hsrc, hid⟩ := hwf hit hmem
  refine ⟨.obj (setField sfs "_id" idv), ?_,
    sfs, idv, hsrc, hid, rfl, lookupField_setField_self sfs "_id" idv⟩
  simp [hsrc, hid, pyCopy, setItem]

/-- A hit whose source already contains an `_id` field that differs from
the hit's identifier. -/
def hitWithOldId : Json :=
  .obj [("_source", .obj [("_id", .str "old"), ("x", .num 1)]), ("_id", .str "new")]

/-- Witness for C5 at a concrete hit whose source has a conflicting
pre-existing `_id`. -/
theorem get_sources_include_id_spec_witness :
    ∃ items, (srWithHits [hitWithOldId]).get_sources true false = .ok items ∧
      List.Forall₂ (fun hit item => ∃ sfs idv,
        hit.subscript "_source" = .ok (.obj sfs) ∧ hit.subscript "_id" = .ok idv ∧
        item = .obj (setField sfs "_id" idv) ∧
        lookupField (setField sfs "_id" idv) "_id" = some idv) [hitWithOldId] items := by
  refine get_sources_include_id_spec (srWithHits [hitWithOldId]) [hitWithOldId] rfl ?_
  intro hit hmem
  simp only [List.mem_singleton] at hmem
  subst hmem
  exact ⟨[("_id", .str "old"), ("x", .num 1)], .str "new", rfl, rfl⟩

/-- A result set with one hit whose source has the single field `a`. -/
def srOneField : SearchResults :=
  srWithHits [.obj [("_source", .obj [("a", .num 1)])]]

/-- Counterexample to C3 as stated: for the provided columns list `[]` the
result is the full one-column table, not a projection to exactly zero
columns (the empty list is falsy in `if columns:`). -/
theorem to_dataframe_empty_columns_not_projection :
    srOneField.to_dataframe (some []) false false =
      .ok { columns := ["a"], rows := [[some (.num 1)]] } ∧
    (["a"] : List String) ≠ ([] : List String) :=
  ⟨rfl, by simp⟩

/-- C3 (amended): for every provided NON-EMPTY columns list, `to_dataframe`
projects to exactly those columns in that order, and raises a
KeyError-equivalent when some requested column is absent from every row
of the source data. -/
theorem to_dataframe_nonempty_projection (s : SearchResults) (cs : List String)
    (include_id include_score : Bool) (srcs : List Json) (df : DataFrame)
    (hcs : cs ≠ [])
    (hsrc : s.get_sources include_id include_score = .ok srcs)
    (hdf : mkDataFrame srcs = .ok df) :
    ((∀ c ∈ cs, ∃ fs, Json.obj fs ∈ srcs ∧ (lookupField fs c).isSome) →
      ∃ df2, s.to_dataframe (some cs) include_id include_score = .ok df2 ∧
        df2.columns = cs) ∧
    ((∃ c ∈ cs, ∀ fs, Json.obj fs ∈ srcs → lookupField fs c = none) →
      ∃ c, s.to_dataframe (some cs) include_id include_score =
        .error (.keyError c)) := by
  have hcols : df.columns = collectColumns srcs := mkDataFrame_columns hdf
  have hred : s.to_dataframe (some cs) include_id include_score = dfSelect df cs := by
    simp only [SearchResults.to_dataframe, hsrc, hdf, except_bind_ok]
    cases cs with
    | nil => exact absurd rfl hcs
    | cons c cs' => simp [List.isEmpty]
  constructor
  · intro hall
    rw [hred]
    have hfind : cs.find? (fun c => decide (c ∉ df.columns)) = none := by
      rw [List.find?_eq_none]
      intro c hc
      simp only [decide_eq_true_eq, not_not]
      rw [hcols, mem_collectColumns]
      exact hall c hc
    rw [dfSelect, hfind]
    exact ⟨_, rfl, rfl⟩
  · rintro ⟨c, hc, habs⟩
    rw [hred]
    have hcnot : c ∉ df.columns := by
      rw [hcols, mem_collectColumns]
      rintro ⟨fs, hmem, hsome⟩
      rw [habs fs hmem] at hsome
      simp at hsome
    have hsome : (cs.find? (fun c => decide (c ∉ df.columns))).isSome := by
      rw [List.find?_isSome]
      exact ⟨c, hc, by simp [hcnot]⟩
    obtain ⟨c2, hc2⟩ := Option.isSome_iff_exists.mp hsome
    rw [dfSelect, hc2]
    exact ⟨c2, rfl⟩

/-- Witness for C3 (amended): projecting the one-column table to `["a"]`
succeeds with exactly that column; requesting `["x"]`, absent from every
row, raises a KeyError. -/
theorem to_dataframe_nonempty_projection_witness :
    (∃ df2, srOneField.to_dataframe (some ["a"]) false false = .ok df2 ∧
      df2.columns = ["a"]) ∧
    (∃ c, srOneField.to_dataframe (some ["x"]) false false = .error (.keyError c)) := by
  constructor
  · refine (to_dataframe_nonempty_projection srOneField ["a"] false false
      [.obj [("a", .num 1)]] { columns := ["a"], rows := [[some (.num 1)]] }
      (by simp) rfl rfl).1 ?_
    intro c hc
    simp only [List.mem_singleton] at hc
    subst hc
    exact ⟨[("a", .num 1)], by simp, rfl⟩
  · refine (to_dataframe_nonempty_projection srOneField ["x"] false false
      [.obj [("a", .num 1)]] { columns := ["a"], rows := [[some (.num 1)]] }
      (by simp) rfl rfl).2 ?_
    refine ⟨"x", by simp, ?_⟩
    intro fs hmem
    simp only [List.mem_singleton] at hmem
    cases hmem
    rfl
